import Mathlib

/-!
Verification of the mortgage amortization engine of ImmoPi
(`calculateRemainingBalance` in the Properties page, together with its
helper `parseLocalDate`).

Modelling choices, all taken from the source:
* Calendar dates are triples (year, month, day); the source manipulates JS
  `Date` values that are always local midnight of such a triple, and
  compares them chronologically, i.e. lexicographically on (year, month, day).
* Money and rates are embedded as rationals (the simulation keeps full
  precision; no rounding happens inside the engine).
* The `while (currentDate <= stopDateMonth)` loop advances `currentDate`
  one month per iteration, so its iteration space is exactly
  `stopMonthIdx + 1 - startMonthIdx` (0 when the start month is after the
  stop month).  The recursion below uses that quantity as fuel, decrementing
  it in lock-step with the month cursor, which reproduces the loop guard.
-/

namespace ImmoPi

/-- Payment timing enumeration of `MortgageConfig.paymentTiming`. -/
inductive PaymentTiming where
  | START_OF_MONTH
  | END_OF_MONTH
deriving DecidableEq, Repr

/-- Calendar date (year, month 1–12, day 1–31), as parsed by `parseLocalDate`
from a `YYYY-MM-DD` string: `new Date(y, m - 1, d)` at local midnight. -/
structure Date where
  year : Nat
  month : Nat
  day : Nat
deriving DecidableEq, Repr

/-- Gregorian leap-year rule used by JS `Date` month arithmetic. -/
def isLeapYear (y : Nat) : Bool :=
  (y % 4 == 0 && y % 100 != 0) || (y % 400 == 0)

/-- Number of days of month `m` of year `y`; this is what
`new Date(y, m, 0)` (day 0 of the following month) evaluates to in the
source when it builds the END_OF_MONTH payment date. -/
def daysInMonth (y m : Nat) : Nat :=
  if m = 2 then (if isLeapYear y then 29 else 28)
  else if m = 4 ∨ m = 6 ∨ m = 9 ∨ m = 11 then 30
  else 31

/-- Chronological order on local-midnight dates: JS `d1 <= d2` on the
`Date` values the engine builds, i.e. lexicographic on (year, month, day). -/
def Date.le (a b : Date) : Prop :=
  a.year < b.year ∨
    (a.year = b.year ∧ (a.month < b.month ∨ (a.month = b.month ∧ a.day ≤ b.day)))

instance (a b : Date) : Decidable (Date.le a b) := by
  unfold Date.le
  exact inferInstance

/-- Validity of a calendar date (what §3 calls a valid calendar date). -/
def ValidDate (d : Date) : Prop :=
  1 ≤ d.month ∧ d.month ≤ 12 ∧ 1 ≤ d.day ∧ d.day ≤ daysInMonth d.year d.month

instance (d : Date) : Decidable (ValidDate d) := by
  unfold ValidDate
  exact inferInstance

/-- Mortgage terms: the `MortgageConfig` record attached to a property. -/
structure MortgageConfig where
  loanAmount : ℚ
  startDate : Date
  interestRate : ℚ
  principalRate : ℚ
  bankName : String
  paymentTiming : PaymentTiming

/-- Invariants of spec §3 on `MortgageConfig`. -/
def ValidTerms (t : MortgageConfig) : Prop :=
  0 < t.loanAmount ∧ 0 ≤ t.interestRate ∧ 0 ≤ t.principalRate ∧
    ValidDate t.startDate

instance (t : MortgageConfig) : Decidable (ValidTerms t) := by
  unfold ValidTerms
  exact inferInstance

/-- Derived quantity `mortgage.interestRate / 100 / 12` from the source. -/
def monthlyInterestFactor (t : MortgageConfig) : ℚ :=
  t.interestRate / 100 / 12

/-- Derived quantity `(mortgage.interestRate + mortgage.principalRate) / 100` from the source. -/
def annualTotalRate (t : MortgageConfig) : ℚ :=
  (t.interestRate + t.principalRate) / 100

/-- Derived quantity `(mortgage.loanAmount * annualTotalRate) / 12` from the source. -/
def monthlyPayment (t : MortgageConfig) : ℚ :=
  t.loanAmount * annualTotalRate t / 12

/-- Linear month index of a date: `year * 12 + (month - 1)`.  The source's
month cursor `currentDate` is always the first day of the month with this
index, and `currentDate.setMonth(getMonth() + 1)` increments the index. -/
def monthIdx (d : Date) : Nat :=
  d.year * 12 + (d.month - 1)

/-- The payment date the loop computes for the month of index `mi`:
`new Date(y, m + 1, 0)` (last day of the month) for END_OF_MONTH and
`new Date(y, m, 1)` (first day of the month) otherwise. -/
def paymentDate (timing : PaymentTiming) (mi : Nat) : Date :=
  match timing with
  | .END_OF_MONTH => ⟨mi / 12, mi % 12 + 1, daysInMonth (mi / 12) (mi % 12 + 1)⟩
  | .START_OF_MONTH => ⟨mi / 12, mi % 12 + 1, 1⟩

/-- The `while (currentDate <= stopDateMonth)` loop body of
`calculateRemainingBalance`.  `fuel = stopMonthIdx + 1 - mi` encodes the
loop guard (`fuel = 0` exactly when `currentDate > stopDateMonth`); `mi` is
the month index of `currentDate` and `balance` the running balance.
Branches, in source order: if `paymentDate <= now` apply one amortization
step, else `break` (return the balance); after stepping, `currentDate`
advances one month and `if (balance <= 0) return 0`. -/
def amortLoop (f P : ℚ) (timing : PaymentTiming) (asOf : Date) :
    Nat → Nat → ℚ → ℚ
  | 0, _, balance => balance
  | fuel + 1, mi, balance =>
    if Date.le (paymentDate timing mi) asOf then
      let interestPart := balance * f
      let principalPart := P - interestPart
      let balance2 := balance - principalPart
      if balance2 ≤ 0 then 0
      else amortLoop f P timing asOf fuel (mi + 1) balance2
    else balance

/-- Function `calculateRemainingBalance` from the source, with the normalized
current date (`now` truncated to midnight) generalized to the `asOf`
parameter of the spec's contract.  The source uses only the year/month of
`startDate` (it restarts the cursor at `new Date(start.getFullYear(),
start.getMonth(), 1)`), which `monthIdx` captures. -/
def calculateRemainingBalance (t : MortgageConfig) (asOf : Date) : ℚ :=
  amortLoop (monthlyInterestFactor t) (monthlyPayment t) t.paymentTiming asOf
    (monthIdx asOf + 1 - monthIdx t.startDate) (monthIdx t.startDate)
    t.loanAmount

/-- Instrumented copy of `amortLoop` that counts (loop-body entries,
amortization steps applied) instead of computing the balance.  A `break`
iteration enters the body without applying a step. -/
def amortLoopCount (f P : ℚ) (timing : PaymentTiming) (asOf : Date) :
    Nat → Nat → ℚ → Nat × Nat
  | 0, _, _ => (0, 0)
  | fuel + 1, mi, balance =>
    if Date.le (paymentDate timing mi) asOf then
      let balance2 := balance - (P - balance * f)
      if balance2 ≤ 0 then (1, 1)
      else
        let r := amortLoopCount f P timing asOf fuel (mi + 1) balance2
        (r.1 + 1, r.2 + 1)
    else (1, 0)

/-- Number of times the loop body of `calculateRemainingBalance` is entered
on the given input. -/
def iterationCount (t : MortgageConfig) (asOf : Date) : Nat :=
  (amortLoopCount (monthlyInterestFactor t) (monthlyPayment t) t.paymentTiming
    asOf (monthIdx asOf + 1 - monthIdx t.startDate) (monthIdx t.startDate)
    t.loanAmount).1

/-- Number of amortization steps (balance updates) the loop applies on the
given input. -/
def stepCount (t : MortgageConfig) (asOf : Date) : Nat :=
  (amortLoopCount (monthlyInterestFactor t) (monthlyPayment t) t.paymentTiming
    asOf (monthIdx asOf + 1 - monthIdx t.startDate) (monthIdx t.startDate)
    t.loanAmount).2

/-- Straight-line simulation of `k` amortization steps from balance `b`,
clamping to `0` the moment the balance drops to `0` or below — the
arithmetic core of the loop once the date logic is resolved. -/
def clampSim (f P : ℚ) : ℚ → Nat → ℚ
  | b, 0 => b
  | b, k + 1 =>
    let b2 := b - (P - b * f)
    if b2 ≤ 0 then 0 else clampSim f P b2 k

/-- Number of amortization steps the loop applies for a (valid) `asOf`:
all months from the start month up to the stop month step, except that the
stop month itself only steps if its payment date has been reached. -/
def numSteps (timing : PaymentTiming) (asOf : Date) (startMi : Nat) : Nat :=
  if monthIdx asOf < startMi then 0
  else if Date.le (paymentDate timing (monthIdx asOf)) asOf then
    monthIdx asOf + 1 - startMi
  else monthIdx asOf - startMi

/-! ### Basic lemmas about dates and the month index -/

theorem Date.le_rfl (d : Date) : Date.le d d := by
  unfold Date.le
  omega

theorem Date.le_trans {a b c : Date} (h1 : Date.le a b) (h2 : Date.le b c) :
    Date.le a c := by
  unfold Date.le at h1 h2 ⊢
  omega

theorem monthIdx_mono {a b : Date} (ha : ValidDate a) (hb : ValidDate b)
    (h : Date.le a b) : monthIdx a ≤ monthIdx b := by
  unfold ValidDate at ha hb
  unfold Date.le at h
  unfold monthIdx
  omega

theorem monthIdx_paymentDate (ti : PaymentTiming) (mi : Nat) :
    monthIdx (paymentDate ti mi) = mi := by
  cases ti <;> simp [paymentDate, monthIdx] <;> omega

theorem granted_of_lt {asOf : Date} (ha : ValidDate asOf) (ti : PaymentTiming)
    {mi : Nat} (h : mi < monthIdx asOf) :
    Date.le (paymentDate ti mi) asOf := by
  unfold ValidDate at ha
  unfold monthIdx at h
  cases ti <;> simp only [paymentDate, Date.le] <;> omega

theorem daysInMonth_ge_two (y m : Nat) : 2 ≤ daysInMonth y m := by
  unfold daysInMonth
  split_ifs <;> norm_num

/-! ### Invariants of the amortization loop, proved directly -/

theorem amortLoop_nonneg (f P : ℚ) (ti : PaymentTiming) (asOf : Date) :
    ∀ fuel mi b, 0 < b → 0 ≤ amortLoop f P ti asOf fuel mi b := by
  intro fuel
  induction fuel with
  | zero => intro mi b hb; simpa [amortLoop] using hb.le
  | succ n ih =>
    intro mi b hb
    simp only [amortLoop]
    split_ifs with hle hneg
    · exact le_refl (0 : ℚ)
    · exact ih (mi + 1) _ (lt_of_not_le hneg)
    · exact hb.le

theorem amortLoop_le (f P L : ℚ) (ti : PaymentTiming) (asOf : Date)
    (hf : 0 ≤ f) (hP : L * f ≤ P) (hL : 0 < L) :
    ∀ fuel mi b, 0 < b → b ≤ L → amortLoop f P ti asOf fuel mi b ≤ L := by
  intro fuel
  induction fuel with
  | zero => intro mi b _ hbL; simpa [amortLoop] using hbL
  | succ n ih =>
    intro mi b hb hbL
    simp only [amortLoop]
    split_ifs with hle hneg
    · exact hL.le
    · have hbf : b * f ≤ L * f := mul_le_mul_of_nonneg_right hbL hf
      exact ih (mi + 1) _ (lt_of_not_le hneg) (by linarith)
    · exact hbL

theorem amortLoop_zero (ti : PaymentTiming) (asOf : Date) :
    ∀ fuel mi b, 0 < b → amortLoop 0 0 ti asOf fuel mi b = b := by
  intro fuel
  induction fuel with
  | zero => intro mi b _; simp [amortLoop]
  | succ n ih =>
    intro mi b hb
    simp only [amortLoop]
    have hb2 : b - ((0 : ℚ) - b * 0) = b := by ring
    split_ifs with hle hneg
    · rw [hb2] at hneg; linarith
    · rw [hb2]; exact ih (mi + 1) b hb
    · rfl

/-! ### Lemmas about the clamped straight-line simulation -/

theorem clampSim_nonneg (f P : ℚ) : ∀ k b, 0 < b → 0 ≤ clampSim f P b k := by
  intro k
  induction k with
  | zero => intro b hb; simpa [clampSim] using hb.le
  | succ n ih =>
    intro b hb
    simp only [clampSim]
    split_ifs with hle
    · exact le_refl (0 : ℚ)
    · exact ih _ (lt_of_not_le hle)

theorem clampSim_mono (f P : ℚ) (hf : 0 ≤ f) :
    ∀ k b1 b2, b1 ≤ b2 → clampSim f P b1 k ≤ clampSim f P b2 k := by
  intro k
  induction k with
  | zero => intro b1 b2 h; simpa [clampSim] using h
  | succ n ih =>
    intro b1 b2 h
    have hmul : b1 * f ≤ b2 * f := mul_le_mul_of_nonneg_right h hf
    have hstep : b1 - (P - b1 * f) ≤ b2 - (P - b2 * f) := by linarith
    simp only [clampSim]
    split_ifs with h1 h2 h2
    · exact le_refl (0 : ℚ)
    · exact clampSim_nonneg f P n _ (lt_of_not_le h2)
    · exact absurd (hstep.trans h2) h1
    · exact ih _ _ hstep

theorem clampSim_succ_le (f P L : ℚ) (hf : 0 ≤ f) (hP : L * f ≤ P)
    (hL : 0 < L) (k : Nat) : clampSim f P L (k + 1) ≤ clampSim f P L k := by
  have hstep : L - (P - L * f) ≤ L := by linarith
  conv_lhs => rw [clampSim]
  split_ifs with h1
  · exact clampSim_nonneg f P k L hL
  · exact clampSim_mono f P hf k _ _ hstep

theorem clampSim_antitone (f P L : ℚ) (hf : 0 ≤ f) (hP : L * f ≤ P)
    (hL : 0 < L) {k1 k2 : Nat} (h : k1 ≤ k2) :
    clampSim f P L k2 ≤ clampSim f P L k1 := by
  obtain ⟨d, rfl⟩ := Nat.exists_eq_add_of_le h
  clear h
  induction d with
  | zero => exact le_refl _
  | succ n ih =>
    exact le_trans (clampSim_succ_le f P L hf hP hL (k1 + n)) ih

theorem clampSim_succ_of_pos (f P : ℚ) :
    ∀ k b, 0 < clampSim f P b (k + 1) →
      clampSim f P b (k + 1) =
        clampSim f P b k - (P - clampSim f P b k * f) := by
  intro k
  induction k with
  | zero =>
    intro b hpos
    rw [clampSim] at hpos ⊢
    split_ifs with h1
    · rw [clampSim, if_pos h1] at hpos; exact absurd hpos (lt_irrefl 0)
    · simp [clampSim]
  | succ n ih =>
    intro b hpos
    rw [clampSim] at hpos ⊢
    split_ifs with h1
    · rw [clampSim, if_pos h1] at hpos; exact absurd hpos (lt_irrefl 0)
    · rw [clampSim, if_neg h1] at hpos
      conv_rhs => rw [clampSim, if_neg h1]
      exact ih _ hpos

/-! ### The loop is the clamped simulation run for `numSteps` steps -/

theorem amortLoop_eq_clampSim (f P : ℚ) (ti : PaymentTiming) (asOf : Date)
    (ha : ValidDate asOf) :
    ∀ fuel mi b, mi + fuel = monthIdx asOf + 1 →
      amortLoop f P ti asOf fuel mi b =
        clampSim f P b
          (if Date.le (paymentDate ti (monthIdx asOf)) asOf
            then monthIdx asOf + 1 - mi else monthIdx asOf - mi) := by
  intro fuel
  induction fuel with
  | zero =>
    intro mi b hmi
    have h0 : (if Date.le (paymentDate ti (monthIdx asOf)) asOf
        then monthIdx asOf + 1 - mi else monthIdx asOf - mi) = 0 := by
      split <;> omega
    rw [h0]
    simp [amortLoop, clampSim]
  | succ n ih =>
    intro mi b hmi
    rcases Nat.lt_or_ge mi (monthIdx asOf) with hlt | hge
    · have hgr : Date.le (paymentDate ti mi) asOf := granted_of_lt ha ti hlt
      have hsplit : (if Date.le (paymentDate ti (monthIdx asOf)) asOf
          then monthIdx asOf + 1 - mi else monthIdx asOf - mi) =
          (if Date.le (paymentDate ti (monthIdx asOf)) asOf
            then monthIdx asOf + 1 - (mi + 1) else monthIdx asOf - (mi + 1)) + 1 := by
        split <;> omega
      rw [hsplit]
      simp only [amortLoop, clampSim, if_pos hgr]
      by_cases h2 : b - (P - b * f) ≤ 0
      · simp only [if_pos h2]
      · simp only [if_neg h2]
        exact ih (mi + 1) _ (by omega)
    · have hmiq : mi = monthIdx asOf := by omega
      subst hmiq
      have hn : n = 0 := by omega
      subst hn
      have hone : monthIdx asOf + 1 - monthIdx asOf = 1 := by omega
      have hzero : monthIdx asOf - monthIdx asOf = 0 := by omega
      simp only [amortLoop, hone, hzero]
      split_ifs with h1 h2
      · simp only [clampSim]
        rw [if_pos h2]
      · simp only [clampSim]
        rw [if_neg h2]
      · simp [clampSim]

theorem calc_eq_clampSim (t : MortgageConfig) (asOf : Date)
    (ha : ValidDate asOf) :
    calculateRemainingBalance t asOf =
      clampSim (monthlyInterestFactor t) (monthlyPayment t) t.loanAmount
        (numSteps t.paymentTiming asOf (monthIdx t.startDate)) := by
  unfold calculateRemainingBalance numSteps
  rcases Nat.lt_or_ge (monthIdx asOf) (monthIdx t.startDate) with h | h
  · rw [if_pos h, show monthIdx asOf + 1 - monthIdx t.startDate = 0 by omega]
    simp [amortLoop, clampSim]
  · rw [if_neg (by omega)]
    exact amortLoop_eq_clampSim _ _ _ _ ha _ _ _ (by omega)

theorem numSteps_mono (ti : PaymentTiming) {d1 d2 : Date} (s : Nat)
    (h1 : ValidDate d1) (h2 : ValidDate d2) (h : Date.le d1 d2) :
    numSteps ti d1 s ≤ numSteps ti d2 s := by
  have hm : monthIdx d1 ≤ monthIdx d2 := monthIdx_mono h1 h2 h
  rcases Nat.lt_or_ge (monthIdx d1) (monthIdx d2) with hlt | hge
  · unfold numSteps
    have hg2 : Date.le (paymentDate ti (monthIdx d1)) d2 := granted_of_lt h2 ti hlt
    split_ifs <;> omega
  · have heq : monthIdx d1 = monthIdx d2 := by omega
    unfold numSteps
    rw [heq]
    have htr : Date.le (paymentDate ti (monthIdx d2)) d1 →
        Date.le (paymentDate ti (monthIdx d2)) d2 :=
      fun hh => Date.le_trans hh h
    split_ifs with g1 g2 g3 <;> first | omega | exact absurd (htr g2) g3

theorem amortLoopCount_fst_le (f P : ℚ) (ti : PaymentTiming) (asOf : Date) :
    ∀ fuel mi b, (amortLoopCount f P ti asOf fuel mi b).1 ≤ fuel := by
  intro fuel
  induction fuel with
  | zero => intro mi b; simp [amortLoopCount]
  | succ n ih =>
    intro mi b
    simp only [amortLoopCount]
    split_ifs <;> simp only []
    · omega
    · have := ih (mi + 1) (b - (P - b * f))
      omega
    · omega

/-! ### Concrete loan configurations used to instantiate the theorems -/

/-- Spec §8 scenario 1: 250000 at 3.5% interest + 2% principal,
START_OF_MONTH, starting 2024-01-01. -/
def exTerms : MortgageConfig :=
  ⟨250000, ⟨2024, 1, 1⟩, 7/2, 2, "Sparkasse", .START_OF_MONTH⟩

/-- Same loan as `exTerms` but with `startDate` on day 15 of the month. -/
def exTermsMid : MortgageConfig :=
  ⟨250000, ⟨2024, 1, 15⟩, 7/2, 2, "Sparkasse", .START_OF_MONTH⟩

/-- Same loan as `exTerms` with END_OF_MONTH payment timing. -/
def exTermsEnd : MortgageConfig :=
  ⟨250000, ⟨2024, 1, 1⟩, 7/2, 2, "Sparkasse", .END_OF_MONTH⟩

/-- Pathological loan in the spirit of spec §8 scenario 4: one monthly
payment of 2000 exceeds the whole 1000 principal. -/
def exTermsOver : MortgageConfig :=
  ⟨1000, ⟨2024, 1, 1⟩, 0, 2400, "", .START_OF_MONTH⟩

/-- Terms violating the §3 invariant `loanAmount > 0`. -/
def exTermsBad : MortgageConfig :=
  ⟨-1000, ⟨2024, 5, 1⟩, 7/2, 2, "", .START_OF_MONTH⟩

/-- Loan with both rates zero (permitted by the §3 invariants). -/
def exTermsZero : MortgageConfig :=
  ⟨50000, ⟨2020, 3, 1⟩, 0, 0, "", .END_OF_MONTH⟩

/-! ### Claim C3 -/

/-- Claim C3: for every MortgageTerms satisfying the §3 invariants and every
asOf date, `computeRemainingBalance(terms, asOf) >= 0`; the loop clamps the
balance to exactly 0 as soon as it reaches or falls below zero, so the
result is never negative. -/
theorem C3_nonneg (t : MortgageConfig) (asOf : Date) (hv : ValidTerms t) :
    0 ≤ calculateRemainingBalance t asOf :=
  amortLoop_nonneg _ _ _ _ _ _ _ hv.1

/-- Witness for C3 at spec scenario terms and a concrete date. -/
theorem C3_witness : 0 ≤ calculateRemainingBalance exTerms ⟨2024, 6, 15⟩ :=
  C3_nonneg exTerms ⟨2024, 6, 15⟩
    (by norm_num [ValidTerms, ValidDate, daysInMonth, isLeapYear, exTerms])

/-! ### Claim C5 -/

/-- Claim C5 (amended): `calculateRemainingBalance` performs no invariant
validation and raises no error whatsoever: it is a total function that
returns a numeric balance for every input, valid or not; in particular,
whenever `asOf`'s month precedes the start month it returns the supplied
`loanAmount` unchanged, even when that amount violates the §3 invariants. -/
theorem C5_no_validation (t : MortgageConfig) (asOf : Date)
    (h : monthIdx asOf < monthIdx t.startDate) :
    calculateRemainingBalance t asOf = t.loanAmount := by
  unfold calculateRemainingBalance
  rw [show monthIdx asOf + 1 - monthIdx t.startDate = 0 by omega]
  rfl

/-- Counterexample to C5 as stated: on terms with a non-positive
`loanAmount` (violating §3) the engine does not fail with any error — it
returns the meaningless balance `-1000`. -/
theorem C5_counterexample :
    ¬ ValidTerms exTermsBad ∧
      calculateRemainingBalance exTermsBad ⟨2024, 1, 10⟩ = -1000 := by
  constructor
  · intro hv
    have h1 := hv.1
    norm_num [exTermsBad] at h1
  · norm_num [calculateRemainingBalance, amortLoop, monthIdx, exTermsBad]

/-- Witness for the amended C5 theorem at the invalid terms. -/
theorem C5_witness :
    calculateRemainingBalance exTermsBad ⟨2024, 1, 10⟩ =
      exTermsBad.loanAmount :=
  C5_no_validation exTermsBad ⟨2024, 1, 10⟩ (by decide)

/-! ### Claim C7 -/

/-- Claim C7: the day-of-month of `startDate` is irrelevant — two valid
terms that agree on everything except the day-of-month of their start
dates produce identical balances for every asOf date. -/
theorem C7_day_irrelevant (t1 t2 : MortgageConfig) (asOf : Date)
    (hv1 : ValidTerms t1) (hv2 : ValidTerms t2)
    (hL : t1.loanAmount = t2.loanAmount)
    (hi : t1.interestRate = t2.interestRate)
    (hp : t1.principalRate = t2.principalRate)
    (hti : t1.paymentTiming = t2.paymentTiming)
    (hy : t1.startDate.year = t2.startDate.year)
    (hm : t1.startDate.month = t2.startDate.month) :
    calculateRemainingBalance t1 asOf = calculateRemainingBalance t2 asOf := by
  unfold calculateRemainingBalance monthlyInterestFactor monthlyPayment
    annualTotalRate monthIdx
  rw [hL, hi, hp, hti, hy, hm]

/-- Witness for C7: start dates 2024-01-01 and 2024-01-15 give the same
balance on 2024-06-15. -/
theorem C7_witness :
    calculateRemainingBalance exTerms ⟨2024, 6, 15⟩ =
      calculateRemainingBalance exTermsMid ⟨2024, 6, 15⟩ :=
  C7_day_irrelevant exTerms exTermsMid ⟨2024, 6, 15⟩
    (by norm_num [ValidTerms, ValidDate, daysInMonth, isLeapYear, exTerms])
    (by norm_num [ValidTerms, ValidDate, daysInMonth, isLeapYear, exTermsMid])
    rfl rfl rfl rfl rfl rfl

/-! ### Claim C8 -/

/-- Claim C8: the loop always terminates (the embedding is structurally
recursive on the month count), its body is entered at most `N + 1` times
where `N` is the number of whole months from `startDate`'s month to
`asOf`'s month, and it is entered zero times when `asOf`'s month precedes
the start month. -/
theorem C8_iteration_bound (t : MortgageConfig) (asOf : Date) :
    iterationCount t asOf ≤ monthIdx asOf + 1 - monthIdx t.startDate ∧
      (monthIdx asOf < monthIdx t.startDate → iterationCount t asOf = 0) := by
  constructor
  · exact amortLoopCount_fst_le _ _ _ _ _ _ _
  · intro h
    unfold iterationCount
    rw [show monthIdx asOf + 1 - monthIdx t.startDate = 0 by omega]
    rfl

/-- Witness for C8: with asOf eight months before the start month, the
loop body never runs. -/
theorem C8_witness : iterationCount exTerms ⟨2023, 5, 1⟩ = 0 :=
  (C8_iteration_bound exTerms ⟨2023, 5, 1⟩).2 (by decide)

/-! ### Claim C9 -/

/-- Claim C9: for every terms satisfying the §3 invariants and every asOf
date, the computed balance never exceeds the original `loanAmount` — each
applied step's principal part is nonnegative while the balance stays at
most `loanAmount`. -/
theorem C9_le_loanAmount (t : MortgageConfig) (asOf : Date)
    (hv : ValidTerms t) :
    calculateRemainingBalance t asOf ≤ t.loanAmount := by
  obtain ⟨hL, hi, hp, -⟩ := hv
  have hf : 0 ≤ monthlyInterestFactor t := by
    unfold monthlyInterestFactor
    positivity
  have hP : t.loanAmount * monthlyInterestFactor t ≤ monthlyPayment t := by
    have hd : monthlyPayment t - t.loanAmount * monthlyInterestFactor t =
        t.loanAmount * t.principalRate / 1200 := by
      unfold monthlyPayment monthlyInterestFactor annualTotalRate
      ring
    have h0 : 0 ≤ t.loanAmount * t.principalRate / 1200 := by positivity
    linarith
  exact amortLoop_le _ _ _ _ _ hf hP hL _ _ _ hL le_rfl

/-- Witness for C9 at spec scenario terms. -/
theorem C9_witness :
    calculateRemainingBalance exTerms ⟨2024, 6, 15⟩ ≤ exTerms.loanAmount :=
  C9_le_loanAmount exTerms ⟨2024, 6, 15⟩
    (by norm_num [ValidTerms, ValidDate, daysInMonth, isLeapYear, exTerms])

/-! ### Claim C10 -/

/-- Claim C10: with both rates zero (permitted by §3), every amortization
step is a no-op (`monthlyPayment = 0`, `interestPart = 0`), so the balance
is never reduced and the result is exactly `loanAmount` for every asOf. -/
theorem C10_zero_rates (t : MortgageConfig) (asOf : Date)
    (hi : t.interestRate = 0) (hp : t.principalRate = 0)
    (hL : 0 < t.loanAmount) :
    calculateRemainingBalance t asOf = t.loanAmount := by
  have hf : monthlyInterestFactor t = 0 := by
    unfold monthlyInterestFactor
    rw [hi]
    norm_num
  have hP : monthlyPayment t = 0 := by
    unfold monthlyPayment annualTotalRate
    rw [hi, hp]
    norm_num
  unfold calculateRemainingBalance
  rw [hf, hP]
  exact amortLoop_zero _ _ _ _ _ hL

/-- Witness for C10: the zero-rate loan still owes its full principal six
years after the start date. -/
theorem C10_witness :
    calculateRemainingBalance exTermsZero ⟨2026, 1, 15⟩ =
      exTermsZero.loanAmount :=
  C10_zero_rates exTermsZero ⟨2026, 1, 15⟩ rfl rfl (by norm_num [exTermsZero])

/-! ### Claim C1 -/

/-- Claim C1 (amended): for every terms satisfying the §3 invariants and
every valid asOf date strictly earlier than the payment date of the start
month (so that the first `paymentDate <= asOf` test fails), the loop
applies no amortization step and returns exactly `loanAmount`.  (The
original claim, with asOf merely earlier than `startDate`, is refuted by
the accompanying counterexample.) -/
theorem C1_pre_first_payment (t : MortgageConfig) (asOf : Date)
    (hv : ValidTerms t) (ha : ValidDate asOf)
    (h : ¬ Date.le (paymentDate t.paymentTiming (monthIdx t.startDate)) asOf) :
    calculateRemainingBalance t asOf = t.loanAmount ∧ stepCount t asOf = 0 := by
  rcases Nat.lt_or_ge (monthIdx asOf) (monthIdx t.startDate) with hlt | hge
  · unfold calculateRemainingBalance stepCount
    rw [show monthIdx asOf + 1 - monthIdx t.startDate = 0 by omega]
    exact ⟨rfl, rfl⟩
  · have heq : monthIdx t.startDate = monthIdx asOf := by
      rcases Nat.lt_or_ge (monthIdx t.startDate) (monthIdx asOf) with hlt2 | hge2
      · exact absurd (granted_of_lt ha t.paymentTiming hlt2) h
      · omega
    rw [heq] at h
    unfold calculateRemainingBalance stepCount
    rw [heq, show monthIdx asOf + 1 - monthIdx asOf = 1 by omega]
    simp only [amortLoop, amortLoopCount, if_neg h]
    constructor <;> trivial

/-- Counterexample to C1 as stated: with a mid-month `startDate`
(2024-01-15, START_OF_MONTH timing) and `asOf = 2024-01-10` — strictly
earlier than `startDate` — the start month's payment date (2024-01-01) has
already passed, so one step applies and the result is 748750/3 ≈
249583.33, not the full `loanAmount`. -/
theorem C1_counterexample :
    ValidTerms exTermsMid ∧
      Date.le ⟨2024, 1, 10⟩ exTermsMid.startDate ∧
      (⟨2024, 1, 10⟩ : Date) ≠ exTermsMid.startDate ∧
      calculateRemainingBalance exTermsMid ⟨2024, 1, 10⟩ ≠
        exTermsMid.loanAmount := by
  refine ⟨by norm_num [ValidTerms, ValidDate, daysInMonth, isLeapYear, exTermsMid],
    by decide, by decide, ?_⟩
  norm_num [calculateRemainingBalance, amortLoop, monthIdx, monthlyPayment,
    monthlyInterestFactor, annualTotalRate, paymentDate, Date.le, exTermsMid,
    daysInMonth]

/-- Witness for the amended C1 at spec §8 scenario 2: asOf 2023-12-31,
before the 2024-01-01 payment date of the start month. -/
theorem C1_witness :
    calculateRemainingBalance exTerms ⟨2023, 12, 31⟩ = exTerms.loanAmount ∧
      stepCount exTerms ⟨2023, 12, 31⟩ = 0 :=
  C1_pre_first_payment exTerms ⟨2023, 12, 31⟩
    (by norm_num [ValidTerms, ValidDate, daysInMonth, isLeapYear, exTerms])
    (by norm_num [ValidDate, daysInMonth, isLeapYear])
    (by decide)

/-! ### Claim C2 -/

/-- Claim C2 (amended): when `asOf` equals the payment date of the start
month, the `paymentDate <= asOf` test succeeds on the `<=` boundary and
exactly one amortization step applies; the result is
`loanAmount - (monthlyPayment - loanAmount * monthlyInterestFactor)`
clamped below at 0 (the clamp is needed when the single step overshoots,
as the accompanying counterexample shows). -/
theorem C2_first_payment_boundary (t : MortgageConfig) (asOf : Date)
    (hv : ValidTerms t)
    (h : asOf = paymentDate t.paymentTiming (monthIdx t.startDate)) :
    stepCount t asOf = 1 ∧
      calculateRemainingBalance t asOf =
        max 0 (t.loanAmount -
          (monthlyPayment t - t.loanAmount * monthlyInterestFactor t)) := by
  subst h
  unfold calculateRemainingBalance stepCount
  rw [monthIdx_paymentDate,
    show monthIdx t.startDate + 1 - monthIdx t.startDate = 1 by omega]
  have hgr : Date.le (paymentDate t.paymentTiming (monthIdx t.startDate))
      (paymentDate t.paymentTiming (monthIdx t.startDate)) := Date.le_rfl _
  simp only [amortLoop, amortLoopCount, if_pos hgr]
  constructor
  · split_ifs <;> rfl
  · split_ifs with hneg
    · rw [max_eq_left (by linarith)]
    · rw [max_eq_right (by linarith)]

/-- Counterexample to C2 as stated: for the overshooting loan (1000
principal, 2000 monthly payment, zero interest) with asOf on the first
payment date, the stated formula yields −1000 but the engine returns 0. -/
theorem C2_counterexample :
    ValidTerms exTermsOver ∧
      (⟨2024, 1, 1⟩ : Date) =
        paymentDate exTermsOver.paymentTiming (monthIdx exTermsOver.startDate) ∧
      calculateRemainingBalance exTermsOver ⟨2024, 1, 1⟩ ≠
        exTermsOver.loanAmount -
          (monthlyPayment exTermsOver -
            exTermsOver.loanAmount * monthlyInterestFactor exTermsOver) := by
  refine ⟨by norm_num [ValidTerms, ValidDate, daysInMonth, isLeapYear, exTermsOver],
    by decide, ?_⟩
  norm_num [calculateRemainingBalance, amortLoop, monthIdx, monthlyPayment,
    monthlyInterestFactor, annualTotalRate, paymentDate, Date.le, exTermsOver,
    daysInMonth]

/-- Witness for the amended C2 at spec §8 scenario 1: one step applies on
2024-01-01 and the balance drops to the clamped single-step value. -/
theorem C2_witness :
    stepCount exTerms ⟨2024, 1, 1⟩ = 1 ∧
      calculateRemainingBalance exTerms ⟨2024, 1, 1⟩ =
        max 0 (exTerms.loanAmount -
          (monthlyPayment exTerms -
            exTerms.loanAmount * monthlyInterestFactor exTerms)) :=
  C2_first_payment_boundary exTerms ⟨2024, 1, 1⟩
    (by norm_num [ValidTerms, ValidDate, daysInMonth, isLeapYear, exTerms])
    (by decide)

/-! ### Claim C4 -/

/-- Claim C4: for fixed terms satisfying the §3 invariants the balance is
monotonically non-increasing in the asOf date — whenever `d1 <= d2`,
`computeRemainingBalance(terms, d1) >= computeRemainingBalance(terms, d2)`. -/
theorem C4_monotone (t : MortgageConfig) (d1 d2 : Date) (hv : ValidTerms t)
    (h1 : ValidDate d1) (h2 : ValidDate d2) (h : Date.le d1 d2) :
    calculateRemainingBalance t d2 ≤ calculateRemainingBalance t d1 := by
  obtain ⟨hL, hi, hp, -⟩ := hv
  have hf : 0 ≤ monthlyInterestFactor t :=
    div_nonneg (div_nonneg hi (by norm_num)) (by norm_num)
  have hP : t.loanAmount * monthlyInterestFactor t ≤ monthlyPayment t := by
    have hd : monthlyPayment t - t.loanAmount * monthlyInterestFactor t =
        t.loanAmount * t.principalRate / 1200 := by
      unfold monthlyPayment monthlyInterestFactor annualTotalRate
      ring
    have h0 : 0 ≤ t.loanAmount * t.principalRate / 1200 :=
      div_nonneg (mul_nonneg hL.le hp) (by norm_num)
    linarith
  rw [calc_eq_clampSim t d1 h1, calc_eq_clampSim t d2 h2]
  exact clampSim_antitone _ _ _ hf hP hL
    (numSteps_mono t.paymentTiming (monthIdx t.startDate) h1 h2 h)

/-- Witness for C4: the balance on 2024-03-15 is at most the balance on
2024-01-01 for the spec scenario loan. -/
theorem C4_witness :
    calculateRemainingBalance exTerms ⟨2024, 3, 15⟩ ≤
      calculateRemainingBalance exTerms ⟨2024, 1, 1⟩ :=
  C4_monotone exTerms ⟨2024, 1, 1⟩ ⟨2024, 3, 15⟩
    (by norm_num [ValidTerms, ValidDate, daysInMonth, isLeapYear, exTerms])
    (by norm_num [ValidDate, daysInMonth, isLeapYear])
    (by norm_num [ValidDate, daysInMonth, isLeapYear])
    (by decide)

/-! ### Claim C6 -/

/-- Claim C6: for END_OF_MONTH timing and any month at or after the start
month, as long as the balance is still positive once that month's payment
has posted, the balances with asOf on the month's last calendar day versus
one day earlier differ by exactly one step's principal reduction — the
monthly payment minus interest on the balance entering the month. -/
theorem C6_end_of_month_boundary (t : MortgageConfig) (M : Nat)
    (dBefore dLast : Date) (hv : ValidTerms t)
    (hti : t.paymentTiming = .END_OF_MONTH)
    (hM : monthIdx t.startDate ≤ M)
    (hLast : dLast = paymentDate .END_OF_MONTH M)
    (hBefore : dBefore = ⟨dLast.year, dLast.month, dLast.day - 1⟩)
    (hpos : 0 < calculateRemainingBalance t dLast) :
    calculateRemainingBalance t dBefore - calculateRemainingBalance t dLast =
      monthlyPayment t -
        calculateRemainingBalance t dBefore * monthlyInterestFactor t := by
  subst hBefore
  subst hLast
  have hdim : 2 ≤ daysInMonth (M / 12) (M % 12 + 1) := daysInMonth_ge_two _ _
  have hmod : M % 12 < 12 := Nat.mod_lt M (by norm_num)
  simp only [paymentDate] at hpos ⊢
  have hvL : ValidDate ⟨M / 12, M % 12 + 1, daysInMonth (M / 12) (M % 12 + 1)⟩ := by
    simp only [ValidDate]
    omega
  have hvB : ValidDate
      ⟨M / 12, M % 12 + 1, daysInMonth (M / 12) (M % 12 + 1) - 1⟩ := by
    simp only [ValidDate]
    omega
  have hmiL : monthIdx
      (⟨M / 12, M % 12 + 1, daysInMonth (M / 12) (M % 12 + 1)⟩ : Date) = M := by
    simp only [monthIdx]
    omega
  have hmiB : monthIdx
      (⟨M / 12, M % 12 + 1, daysInMonth (M / 12) (M % 12 + 1) - 1⟩ : Date) = M := by
    simp only [monthIdx]
    omega
  have hnL : numSteps t.paymentTiming
      (⟨M / 12, M % 12 + 1, daysInMonth (M / 12) (M % 12 + 1)⟩ : Date)
      (monthIdx t.startDate) = (M - monthIdx t.startDate) + 1 := by
    rw [hti]
    unfold numSteps
    rw [hmiL, if_neg (by omega), if_pos (by simp only [paymentDate]; exact Date.le_rfl _)]
    omega
  have hnB : numSteps t.paymentTiming
      (⟨M / 12, M % 12 + 1, daysInMonth (M / 12) (M % 12 + 1) - 1⟩ : Date)
      (monthIdx t.startDate) = M - monthIdx t.startDate := by
    rw [hti]
    unfold numSteps
    rw [hmiB, if_neg (by omega),
      if_neg (by simp only [paymentDate, Date.le]; omega)]
  rw [calc_eq_clampSim t _ hvL] at hpos
  rw [calc_eq_clampSim t _ hvL, calc_eq_clampSim t _ hvB, hnL, hnB]
  rw [hnL] at hpos
  have hstep := clampSim_succ_of_pos (monthlyInterestFactor t)
    (monthlyPayment t) (M - monthIdx t.startDate) t.loanAmount hpos
  rw [hstep]
  ring

/-- Witness for C6 on the END_OF_MONTH loan: January 2024 (month index
24288) — balances on 2024-01-30 and 2024-01-31 differ by the first step's
principal part. -/
theorem C6_witness :
    calculateRemainingBalance exTermsEnd ⟨2024, 1, 30⟩ -
        calculateRemainingBalance exTermsEnd ⟨2024, 1, 31⟩ =
      monthlyPayment exTermsEnd -
        calculateRemainingBalance exTermsEnd ⟨2024, 1, 30⟩ *
          monthlyInterestFactor exTermsEnd :=
  C6_end_of_month_boundary exTermsEnd 24288 ⟨2024, 1, 30⟩ ⟨2024, 1, 31⟩
    (by norm_num [ValidTerms, ValidDate, daysInMonth, isLeapYear, exTermsEnd])
    rfl (by decide) (by decide) (by decide)
    (by norm_num [calculateRemainingBalance, amortLoop, monthIdx,
      monthlyPayment, monthlyInterestFactor, annualTotalRate, paymentDate,
      Date.le, exTermsEnd, daysInMonth, isLeapYear])

end ImmoPi
